import Mathlib

/-!
Verification model of the StellarAIO webhook parser
(`parseWebhookMessage`, `isSuccessfulCheckout` and their helpers).

Modelling conventions, chosen once for the whole file:
* JavaScript strings are modelled as `List Char`.  `S s` turns a Lean
  string literal into that representation.
* JavaScript numbers are modelled as exact rationals (`ℚ`), built with
  `mkRat` from integer arithmetic.  All numeric claims about the parser
  compare numbers that arise from short decimal literals, and for such
  literals equality of the exact rationals coincides with equality of the
  IEEE doubles they round to, so nothing is lost by this idealisation.
* `String.prototype.trim`, `toLowerCase` and the regex character class
  `\s` are modelled on the ASCII range (space, tab, newline, carriage
  return, vertical tab, form feed); every input appearing in the claims
  is ASCII.
* `parseFloat` is modelled without the `Infinity` literal: a cleansed
  price text that is not a decimal/scientific number is a parse failure.
* JavaScript `Map` objects are modelled as association lists in insertion
  order: `mset` overwrites in place or appends, `mget` finds the first
  (unique) binding.
-/

/-- Shorthand: the character list of a string literal. -/
abbrev S (s : String) : List Char := s.data

/-- ASCII fragment of the JavaScript whitespace class `\s`. -/
def isWhitespaceJS (c : Char) : Bool :=
  c = ' ' || c = '\t' || c = '\n' || c = '\r' || c = '\x0b' || c = '\x0c'

/-- ASCII decimal digit. -/
def isDigitC (c : Char) : Bool :=
  '0' ≤ c && c ≤ '9'

/-- ASCII letter (either case). -/
def isAsciiLetter (c : Char) : Bool :=
  ('a' ≤ c && c ≤ 'z') || ('A' ≤ c && c ≤ 'Z')

/-- ASCII lowercase letter, the class `[a-z]`. -/
def isLowerAZ (c : Char) : Bool :=
  'a' ≤ c && c ≤ 'z'

/-- ASCII model of `String.prototype.toLowerCase` on one character. -/
def toLowerJS (c : Char) : Char :=
  if 'A' ≤ c ∧ c ≤ 'Z' then Char.ofNat (c.toNat + 32) else c

/-- `toLowerCase` on a whole string. -/
def toLowerL (l : List Char) : List Char :=
  l.map toLowerJS

/-- Model of `String.prototype.trim`. -/
def trimL (l : List Char) : List Char :=
  ((l.dropWhile isWhitespaceJS).reverse.dropWhile isWhitespaceJS).reverse

/-- Model of `text.split('\n')`. -/
def splitLines : List Char → List (List Char)
  | [] => [[]]
  | c :: rest =>
    match splitLines rest with
    | [] => [[]]
    | l :: ls => if c = '\n' then [] :: l :: ls else (c :: l) :: ls

/-- Does `hay` start with `needle`? -/
def startsWithL : List Char → List Char → Bool
  | [], _ => true
  | _ :: _, [] => false
  | a :: as, b :: bs => a = b && startsWithL as bs

/-- Model of `hay.includes(needle)`. -/
def hasSubstring : List Char → List Char → Bool
  | n, [] => n.isEmpty
  | n, c :: bs => startsWithL n (c :: bs) || hasSubstring n bs

/-- Value of a nonempty digit string. -/
def digitsToNat (ds : List Char) : Nat :=
  ds.foldl (fun n c => 10 * n + (c.toNat - 48)) 0

/-- Sign prefix accepted by `parseFloat` / `parseInt`: returns the sign
and the rest of the string. -/
def signSplit (t : List Char) : Int × List Char :=
  match t with
  | '-' :: r => (-1, r)
  | '+' :: r => (1, r)
  | _ => (1, t)

/-- Exponent part of a `parseFloat` literal, after the `e`/`E`: an
optional sign and digits.  When no digits follow, `parseFloat` ignores
the exponent marker, which the caller models by using exponent `0`. -/
def expPart (r : List Char) : Option Int :=
  match signSplit r with
  | (sg, r2) =>
    let ds := r2.takeWhile isDigitC
    if ds = [] then none else some (sg * (digitsToNat ds : Int))

/-- Model of JavaScript `parseFloat`: longest valid numeric prefix
(leading whitespace, optional sign, decimal digits with optional point,
optional exponent), trailing garbage ignored; `none` models `NaN`.
The resulting number is returned as an exact rational via `mkRat`. -/
def parseFloatQ (s : List Char) : Option ℚ :=
  let t := s.dropWhile isWhitespaceJS
  match signSplit t with
  | (sg, t1) =>
    let ip := t1.takeWhile isDigitC
    let t2 := t1.dropWhile isDigitC
    let fr :=
      match t2 with
      | '.' :: r => r.takeWhile isDigitC
      | _ => []
    let t3 :=
      match t2 with
      | '.' :: r => r.dropWhile isDigitC
      | _ => t2
    if ip = [] ∧ fr = [] then none
    else
      let ex : Int :=
        match t3 with
        | 'e' :: r => (expPart r).getD 0
        | 'E' :: r => (expPart r).getD 0
        | _ => 0
      let mantNum : Int := sg * ((digitsToNat ip * 10 ^ fr.length + digitsToNat fr : Nat) : Int)
      let mantDen : Nat := 10 ^ fr.length
      if 0 ≤ ex then some (mkRat (mantNum * (10 ^ ex.toNat : Nat)) mantDen)
      else some (mkRat mantNum (mantDen * 10 ^ (-ex).toNat))

/-- Model of JavaScript `parseInt(s, 10)`: leading whitespace, optional
sign, longest digit prefix; `none` models `NaN`. -/
def parseIntJS (s : List Char) : Option Int :=
  let t := s.dropWhile isWhitespaceJS
  match signSplit t with
  | (sg, t1) =>
    let ds := t1.takeWhile isDigitC
    if ds = [] then none else some (sg * (digitsToNat ds : Int))

/-- `stripSpoilerTags`: `value.replace(/^\|\|(.+?)\|\|$/s, '$1').trim()`.
The anchored lazy pattern matches exactly when the value is `||`,
at least one character, then `||`; the replacement keeps the middle. -/
def stripSpoilerTags (value : List Char) : List Char :=
  if 5 ≤ value.length ∧ value.take 2 = S "||" ∧ value.drop (value.length - 2) = S "||" then
    trimL ((value.drop 2).take (value.length - 4))
  else trimL value

/-- One attempt of the currency-code pattern `\s*(USD|EUR|GBP|CAD|AUD)\s*`
(case-insensitive) anchored at the current position: whitespace, a code,
trailing whitespace.  Returns the rest of the string after the match. -/
def currencyMatch (s : List Char) : Option (List Char) :=
  match s.dropWhile isWhitespaceJS with
  | a :: b :: c :: rest =>
    let w := [toLowerJS a, toLowerJS b, toLowerJS c]
    if w = S "usd" || w = S "eur" || w = S "gbp" || w = S "cad" || w = S "aud" then
      some (rest.dropWhile isWhitespaceJS)
    else none
  | _ => none

/-- Left-to-right non-overlapping removal of currency-code matches.
The fuel is an upper bound on the scan length; every successful match
consumes at least three characters, so `s.length` fuel never runs out. -/
def removeCurrencyGo : Nat → List Char → List Char
  | 0, s => s
  | _ + 1, [] => []
  | n + 1, c :: rest =>
    match currencyMatch (c :: rest) with
    | some t => removeCurrencyGo n t
    | none => c :: removeCurrencyGo n rest

/-- `.replace(/\s*(USD|EUR|GBP|CAD|AUD)\s*/gi, '')`. -/
def removeCurrency (s : List Char) : List Char :=
  removeCurrencyGo s.length s

/-- The cleansing pipeline of `parsePrice` before the numeric parse:
strip spoiler tags, remove `$ £ € ¥`, remove commas, remove currency
codes with surrounding whitespace, trim. -/
def priceCleaned (priceStr : List Char) : List Char :=
  trimL (removeCurrency
    (((stripSpoilerTags priceStr).filter
        (fun c => !(c = '$' || c = '£' || c = '€' || c = '¥'))).filter
      (fun c => !(c = ','))))

/-- `parsePrice`: numeric parse of the cleansed text, `0` on `NaN`. -/
def parsePrice (priceStr : List Char) : ℚ :=
  (parseFloatQ (priceCleaned priceStr)).getD 0

/-- One attempt of the pattern `qty:?\s*` (case-insensitive) anchored at
the current position.  Returns the rest of the string after the match. -/
def qtyMatch (s : List Char) : Option (List Char) :=
  match s with
  | a :: b :: c :: rest =>
    if toLowerJS a = 'q' && toLowerJS b = 't' && toLowerJS c = 'y' then
      let r1 := match rest with | ':' :: r => r | _ => rest
      some (r1.dropWhile isWhitespaceJS)
    else none
  | _ => none

/-- Left-to-right non-overlapping removal of `qty:?\s*` matches, with the
same fuel convention as `removeCurrencyGo`. -/
def removeQtyGo : Nat → List Char → List Char
  | 0, s => s
  | _ + 1, [] => []
  | n + 1, c :: rest =>
    match qtyMatch (c :: rest) with
    | some t => removeQtyGo n t
    | none => c :: removeQtyGo n rest

/-- `.replace(/qty:?\s*/gi, '')`. -/
def removeQty (s : List Char) : List Char :=
  removeQtyGo s.length s

/-- The cleansing pipeline of `parseQuantity`: remove `x`/`X`, remove
`qty:?` with trailing whitespace, trim. -/
def qtyCleaned (qtyStr : List Char) : List Char :=
  trimL (removeQty (qtyStr.filter (fun c => !(c = 'x' || c = 'X'))))

/-- `parseQuantity`: integer parse of the cleansed text, `1` on `NaN`. -/
def parseQuantity (qtyStr : List Char) : Int :=
  (parseIntJS (qtyCleaned qtyStr)).getD 1

/-- The static label-to-canonical-key table `FIELD_MAPPINGS`, in source
order. -/
def FIELD_MAPPINGS_LIST : List (List Char × List Char) :=
  [(S "site", S "site"),
   (S "product", S "product"),
   (S "price", S "price"),
   (S "qty", S "quantity"),
   (S "quantity", S "quantity"),
   (S "sku", S "sku"),
   (S "mode", S "mode"),
   (S "fulfillment type", S "fulfillment_type"),
   (S "fulfillment", S "fulfillment_type"),
   (S "profile", S "profile"),
   (S "order id", S "order_id"),
   (S "order number", S "order_id"),
   (S "order #", S "order_id"),
   (S "order email", S "order_email"),
   (S "email", S "order_email"),
   (S "order link", S "order_link"),
   (S "link", S "order_link"),
   (S "account", S "account"),
   (S "buy now atc?", S "mode"),
   (S "buy now", S "mode")]

/-- First binding of a key in an association list; models both
`FIELD_MAPPINGS[k]` and `Map.prototype.get` (the maps built below keep
keys unique, so first = only). -/
def mget {α β : Type} [DecidableEq α] : List (α × β) → α → Option β
  | [], _ => none
  | (k0, v) :: rest, k => if k0 = k then some v else mget rest k

/-- `FIELD_MAPPINGS` as a lookup function. -/
def FIELD_MAPPINGS (k : List Char) : Option (List Char) :=
  mget FIELD_MAPPINGS_LIST k

/-- `PER_ITEM_FIELDS` (raw labels that can be numbered). -/
def PER_ITEM_FIELDS : List (List Char) :=
  [S "product", S "price", S "qty", S "quantity", S "sku"]

/-- `SHARED_FIELDS` (raw labels shared across all items). -/
def SHARED_FIELDS : List (List Char) :=
  [S "site", S "mode", S "fulfillment type", S "fulfillment", S "profile",
   S "order id", S "order number", S "order #", S "order email", S "email",
   S "order link", S "link", S "account"]

/-- The anchored numbered-label pattern `^([a-z\s]+?)\s*\((\d+)\)$`.
The capture class excludes `(` and digits, so a match forces the
parenthesis to be the first `(` of the string, with only digits up to a
final `)`.  Returns the trimmed captured base name and the number. -/
def numberedMatch (s : List Char) : Option (List Char × Nat) :=
  let pre := s.takeWhile (fun c => !(c = '('))
  match s.dropWhile (fun c => !(c = '(')) with
  | _ :: mid =>
    let ds := mid.takeWhile isDigitC
    if pre ≠ [] ∧ pre.all (fun c => isLowerAZ c || isWhitespaceJS c) ∧
        ds ≠ [] ∧ mid.dropWhile isDigitC = [')'] then
      some (trimL pre, digitsToNat ds)
    else none
  | [] => none

/-- `parseFieldName`: lowercase and trim the label, try the numbered
pattern (index = number − 1), else a direct table match (index 0). -/
def parseFieldName (fieldName : List Char) : Option (List Char × Int) :=
  let lower := trimL (toLowerL fieldName)
  match numberedMatch lower with
  | some (base, n) =>
    if (FIELD_MAPPINGS base).isSome then some (base, (n : Int) - 1)
    else if (FIELD_MAPPINGS lower).isSome then some (lower, 0) else none
  | none =>
    if (FIELD_MAPPINGS lower).isSome then some (lower, 0) else none

/-- `Map.prototype.set`: overwrite the first binding in place, or append
a new binding. -/
def mset {α β : Type} [DecidableEq α] : List (α × β) → α → β → List (α × β)
  | [], k, v => [(k, v)]
  | (k0, v0) :: rest, k, v =>
    if k0 = k then (k0, v) :: rest else (k0, v0) :: mset rest k v

/-- A shared-field or per-item map: canonical key to raw string value. -/
abbrev FieldMap := List (List Char × List Char)

/-- The per-item maps, keyed by item index. -/
abbrev ItemsMap := List (Int × FieldMap)

/-- `items.get(idx)` followed by `.set(key, value)`, creating the inner
map when the index is new. -/
def itemsSet (items : ItemsMap) (idx : Int) (k v : List Char) : ItemsMap :=
  mset items idx (mset ((mget items idx).getD []) k v)

/-- `x || defaultString` on an optional string: JavaScript treats both a
missing value and the empty string as falsy. -/
def jsOr (o : Option (List Char)) (d : List Char) : List Char :=
  match o with
  | some v => if v = [] then d else v
  | none => d

/-- `x || null`: empty strings become `null`. -/
def orNull (s : List Char) : Option (List Char) :=
  if s = [] then none else some s

/-- An embed field, `{name, value}`. -/
structure EmbedField where
  name : List Char
  value : List Char

/-- The optional author object of an embed. -/
structure EmbedAuthor where
  name : Option (List Char)

/-- A Discord embed as consumed by the parser. -/
structure Embed where
  title : Option (List Char)
  description : Option (List Char)
  fields : Option (List EmbedField)
  author : Option EmbedAuthor

/-- The output entity `ParsedWebhookMessage`, fields in source order. -/
structure ParsedWebhookMessage where
  product : List Char
  price : ℚ
  quantity : Int
  site : List Char
  sku : Option (List Char)
  mode : Option (List Char)
  fulfillment_type : Option (List Char)
  profile : Option (List Char)
  order_id : Option (List Char)
  order_email : Option (List Char)
  order_link : Option (List Char)
  account : Option (List Char)
  raw_message_text : List Char
  deriving DecidableEq

/-- The text checked by the classifier: title, description, author name
and raw text joined with single spaces, lowercased. -/
def checkedText (embed : Option Embed) (rawText : List Char) : List Char :=
  toLowerL (List.intercalate [' ']
    [(embed.bind Embed.title).getD [],
     (embed.bind Embed.description).getD [],
     ((embed.bind Embed.author).bind EmbedAuthor.name).getD [],
     rawText])

/-- `isSuccessfulCheckout`: false when both inputs are empty, else true
iff the checked text contains one of the three trigger phrases. -/
def isSuccessfulCheckout (embed : Option Embed) (rawText : List Char) : Bool :=
  match embed, rawText with
  | none, [] => false
  | _, _ =>
    hasSubstring (S "successful checkout") (checkedText embed rawText) ||
    hasSubstring (S "checkout success") (checkedText embed rawText) ||
    hasSubstring (S "successfully checked out") (checkedText embed rawText)

/-- The line-pair strategy of `extractFieldsFromText`: walk the trimmed
nonempty lines; a line that resolves as a field name and is followed by
a line that does not resolve records that next line as its value
(per-item: overwrite; shared: first-write-wins; a label outside both
classification sets records nothing) and skips the value line. -/
def linePass : List (List Char) → FieldMap × ItemsMap → FieldMap × ItemsMap
  | [], st => st
  | [_], st => st
  | l :: next :: rest, st =>
    match parseFieldName l with
    | some bi =>
      if (parseFieldName next).isNone then
        let mapped := (FIELD_MAPPINGS bi.1).getD []
        let st2 :=
          if bi.1 ∈ PER_ITEM_FIELDS then
            (st.1, itemsSet st.2 bi.2 mapped next)
          else if bi.1 ∈ SHARED_FIELDS then
            ((if (mget st.1 mapped).isNone then mset st.1 mapped next else st.1), st.2)
          else st
        linePass rest st2
      else linePass (next :: rest) st
    | none => linePass (next :: rest) st

/-- One line against the colon pattern
`^([A-Za-z][A-Za-z0-9\s#?()]+?):\s*(.+)$` (multiline).  The capture
class excludes `:`, so the split is at the first colon; returns the raw
label and the text after the colon. -/
def colonMatch (line : List Char) : Option (List Char × List Char) :=
  let label := line.takeWhile (fun c => !(c = ':'))
  match line.dropWhile (fun c => !(c = ':')) with
  | _ :: value =>
    match label with
    | c :: tail =>
      if isAsciiLetter c && tail ≠ [] &&
          tail.all (fun d => isAsciiLetter d || isDigitC d || isWhitespaceJS d ||
            d = '#' || d = '?' || d = '(' || d = ')') &&
          value ≠ [] then
        some (label, value)
      else none
    | [] => none
  | [] => none

/-- The colon strategy applied to one raw line: resolve the trimmed
label; when it resolves and the trimmed value is nonempty, record with
first-write-wins into the per-item or shared map. -/
def colonStep (st : FieldMap × ItemsMap) (line : List Char) : FieldMap × ItemsMap :=
  match colonMatch line with
  | none => st
  | some (label, rawValue) =>
    let value := trimL rawValue
    match parseFieldName (trimL label) with
    | none => st
    | some bi =>
      if value ≠ [] then
        let mapped := (FIELD_MAPPINGS bi.1).getD []
        if bi.1 ∈ PER_ITEM_FIELDS then
          (st.1,
           if (mget ((mget st.2 bi.2).getD []) mapped).isNone then
             itemsSet st.2 bi.2 mapped value
           else st.2)
        else if bi.1 ∈ SHARED_FIELDS then
          ((if (mget st.1 mapped).isNone then mset st.1 mapped value else st.1), st.2)
        else st
      else st

/-- `extractFieldsFromText`: line-pair strategy over the trimmed
nonempty lines, then the colon strategy over the raw lines, both filling
the same text-sourced maps. -/
def extractFieldsFromText (text : List Char) : FieldMap × ItemsMap :=
  let lines := ((splitLines text).map trimL).filter (fun l => l ≠ [])
  (splitLines text).foldl colonStep (linePass lines ([], []))

/-- One embed field into the embed-scoped maps: resolve the name; record
the trimmed value (per-item and shared alike use plain `Map.set`, so a
later field with the same key overwrites; a label outside both
classification sets records nothing). -/
def embedStep (acc : FieldMap × ItemsMap) (f : EmbedField) : FieldMap × ItemsMap :=
  match parseFieldName f.name with
  | none => acc
  | some bi =>
    let mapped := (FIELD_MAPPINGS bi.1).getD []
    let value := trimL f.value
    if bi.1 ∈ PER_ITEM_FIELDS then
      (acc.1, itemsSet acc.2 bi.2 mapped value)
    else if bi.1 ∈ SHARED_FIELDS then
      (mset acc.1 mapped value, acc.2)
    else acc

/-- The embed-fields extraction pass over a field list. -/
def embedFieldsExtract (fs : List EmbedField) : FieldMap × ItemsMap :=
  fs.foldl embedStep ([], [])

/-- Embed-sourced maps of `parseWebhookMessage` (empty when there is no
embed or it has no field list). -/
def embedExtract (embed : Option Embed) : FieldMap × ItemsMap :=
  match embed with
  | none => ([], [])
  | some e =>
    match e.fields with
    | none => ([], [])
    | some fs => embedFieldsExtract fs

/-- `new Map([...m1, ...m2])`: start from `m1`, overlay `m2` (later
entries win, first-insertion position kept). -/
def mergeMaps {α β : Type} [DecidableEq α] (m1 m2 : List (α × β)) : List (α × β) :=
  m2.foldl (fun acc kv => mset acc kv.1 kv.2) m1

/-- The merged shared map: text-sourced fields overlaid by embed-sourced
fields. -/
def sharedMerged (embed : Option Embed) (rawText : List Char) : FieldMap :=
  mergeMaps (extractFieldsFromText rawText).1 (embedExtract embed).1

/-- `Set` insertion order: keep the first occurrence of each element. -/
def dedupKeepFirstGo (seen : List Int) : List Int → List Int
  | [] => []
  | x :: xs =>
    if x ∈ seen then dedupKeepFirstGo seen xs
    else x :: dedupKeepFirstGo (x :: seen) xs

/-- `new Set([...embedItems.keys(), ...textItems.keys()])`. -/
def itemIndices (embed : Option Embed) (rawText : List Char) : List Int :=
  dedupKeepFirstGo []
    ((embedExtract embed).2.map Prod.fst ++
     (extractFieldsFromText rawText).2.map Prod.fst)

/-- The merged per-item maps: for each discovered index, text-sourced
fields overlaid by embed-sourced fields. -/
def itemsMerged (embed : Option Embed) (rawText : List Char) : ItemsMap :=
  (itemIndices embed rawText).map (fun i =>
    (i, mergeMaps ((mget (extractFieldsFromText rawText).2 i).getD [])
                  ((mget (embedExtract embed).2 i).getD [])))

/-- When no numbered item was found, a single empty item at index 0. -/
def itemsFinal (embed : Option Embed) (rawText : List Char) : ItemsMap :=
  if itemsMerged embed rawText = [] then [(0, [])] else itemsMerged embed rawText

/-- Insertion into an index-sorted entry list. -/
def insertSorted (x : Int × FieldMap) : ItemsMap → ItemsMap
  | [] => [x]
  | y :: ys => if x.1 ≤ y.1 then x :: y :: ys else y :: insertSorted x ys

/-- `[...items.entries()].sort((a, b) => a[0] - b[0])`: the entries in
ascending index order (all indices are distinct). -/
def sortByIdx (l : ItemsMap) : ItemsMap :=
  l.foldr insertSorted []

/-- The final sorted item entries of one parse call. -/
def sortedItems (embed : Option Embed) (rawText : List Char) : ItemsMap :=
  sortByIdx (itemsFinal embed rawText)

/-- The loop body building one `ParsedWebhookMessage` from an item
entry: cleanse, validate `product`/`site`, fill shared fields.  `none`
models `continue` (the item is skipped). -/
def buildPurchase (sh : FieldMap) (rt : List Char) (en : Int × FieldMap) :
    Option ParsedWebhookMessage :=
  if stripSpoilerTags (jsOr (mget en.2 (S "product")) []) = [] ∨
      stripSpoilerTags (jsOr (mget sh (S "site")) []) = [] then
    none
  else
    some ⟨stripSpoilerTags (jsOr (mget en.2 (S "product")) []),
          parsePrice (jsOr (mget en.2 (S "price")) (S "0")),
          parseQuantity (jsOr (mget en.2 (S "quantity")) (S "1")),
          stripSpoilerTags (jsOr (mget sh (S "site")) []),
          orNull (stripSpoilerTags (jsOr (mget en.2 (S "sku")) [])),
          orNull (stripSpoilerTags (jsOr (mget sh (S "mode")) [])),
          orNull (stripSpoilerTags (jsOr (mget sh (S "fulfillment_type")) [])),
          orNull (stripSpoilerTags (jsOr (mget sh (S "profile")) [])),
          orNull (stripSpoilerTags (jsOr (mget sh (S "order_id")) [])),
          orNull (stripSpoilerTags (jsOr (mget sh (S "order_email")) [])),
          orNull (stripSpoilerTags (jsOr (mget sh (S "order_link")) [])),
          orNull (stripSpoilerTags (jsOr (mget sh (S "account")) [])),
          rt⟩

/-- `parseWebhookMessage`: extract from both sources, merge with embed
priority, sort the item indices, build and validate each purchase. -/
def parseWebhookMessage (embed : Option Embed) (rawText : List Char) :
    List ParsedWebhookMessage :=
  (sortedItems embed rawText).filterMap
    (buildPurchase (sharedMerged embed rawText) rawText)

/-! ### Lemmas about the association-list model of `Map` -/

/-- The keys of a map, in insertion order. -/
def keysOf {α β : Type} (m : List (α × β)) : List α := m.map Prod.fst

theorem mget_mset_self {α β : Type} [DecidableEq α] (m : List (α × β)) (k : α) (v : β) :
    mget (mset m k v) k = some v := by
  induction m with
  | nil => simp [mset, mget]
  | cons p rest ih =>
    obtain ⟨k0, v0⟩ := p
    by_cases h : k0 = k
    · simp [mset, mget, h]
    · simp [mset, mget, h, ih]

theorem mget_mset_ne {α β : Type} [DecidableEq α] (m : List (α × β)) (k k2 : α) (v : β)
    (h : k2 ≠ k) : mget (mset m k v) k2 = mget m k2 := by
  induction m with
  | nil =>
    have hne : ¬k = k2 := fun hkk => h hkk.symm
    simp [mset, mget, hne]
  | cons p rest ih =>
    obtain ⟨k0, v0⟩ := p
    by_cases h0 : k0 = k
    · subst h0
      have hne : ¬k0 = k2 := fun hkk => h hkk.symm
      have hm : mset ((k0, v0) :: rest) k0 v = (k0, v) :: rest := by simp [mset]
      rw [hm]
      simp [mget, hne]
    · have hm : mset ((k0, v0) :: rest) k v = (k0, v0) :: mset rest k v := by
        simp [mset, h0]
      rw [hm]
      by_cases h2 : k0 = k2
      · simp [mget, h2]
      · simp [mget, h2, ih]

theorem mem_keys_mset {α β : Type} [DecidableEq α] (m : List (α × β)) (k a : α) (v : β) :
    a ∈ keysOf (mset m k v) ↔ a ∈ keysOf m ∨ a = k := by
  induction m with
  | nil => simp [mset, keysOf]
  | cons p rest ih =>
    obtain ⟨k0, v0⟩ := p
    by_cases h : k0 = k
    · subst h
      have hm : mset ((k0, v0) :: rest) k0 v = (k0, v) :: rest := by simp [mset]
      rw [hm]
      simp only [keysOf, List.map_cons, List.mem_cons]
      constructor
      · rintro (rfl | hmem)
        · exact Or.inr rfl
        · exact Or.inl (Or.inr hmem)
      · rintro ((rfl | hmem) | rfl)
        · exact Or.inl rfl
        · exact Or.inr hmem
        · exact Or.inl rfl
    · have hm : mset ((k0, v0) :: rest) k v = (k0, v0) :: mset rest k v := by
        simp [mset, h]
      rw [hm]
      simp only [keysOf, List.map_cons, List.mem_cons] at ih ⊢
      rw [ih]
      tauto

theorem mget_eq_none_of_not_mem {α β : Type} [DecidableEq α] (m : List (α × β)) (k : α)
    (h : k ∉ keysOf m) : mget m k = none := by
  induction m with
  | nil => rfl
  | cons p rest ih =>
    obtain ⟨k0, v0⟩ := p
    simp only [keysOf, List.map_cons, List.mem_cons] at h
    push_neg at h
    simp only [mget]
    rw [if_neg (fun hkk : k0 = k => h.1 hkk.symm)]
    exact ih h.2

theorem mget_some_mem {α β : Type} [DecidableEq α] (m : List (α × β)) (k : α) (v : β)
    (h : mget m k = some v) : k ∈ keysOf m := by
  induction m with
  | nil => simp [mget] at h
  | cons p rest ih =>
    obtain ⟨k0, v0⟩ := p
    by_cases h0 : k0 = k
    · simp [keysOf, h0]
    · simp only [mget, if_neg h0] at h
      simp [keysOf] at ih ⊢
      exact Or.inr (ih h)

theorem nodup_keys_mset {α β : Type} [DecidableEq α] (m : List (α × β)) (k : α) (v : β)
    (h : (keysOf m).Nodup) : (keysOf (mset m k v)).Nodup := by
  induction m with
  | nil => simp [mset, keysOf]
  | cons p rest ih =>
    obtain ⟨k0, v0⟩ := p
    simp only [keysOf, List.map_cons, List.nodup_cons] at h
    by_cases h0 : k0 = k
    · subst h0
      simpa [mset, keysOf, List.nodup_cons] using h
    · simp only [mset, if_neg h0, keysOf, List.map_cons, List.nodup_cons]
      refine ⟨?_, ih h.2⟩
      intro hmem
      rcases (mem_keys_mset rest k k0 v).mp hmem with hmem2 | rfl
      · exact h.1 hmem2
      · exact h0 rfl

theorem mget_mergeMaps_of_none {α β : Type} [DecidableEq α] (m1 m2 : List (α × β)) (k : α)
    (h : mget m2 k = none) : mget (mergeMaps m1 m2) k = mget m1 k := by
  induction m2 generalizing m1 with
  | nil => rfl
  | cons p rest ih =>
    obtain ⟨k0, v0⟩ := p
    by_cases h0 : k0 = k
    · simp [mget, h0] at h
    · simp only [mget, if_neg h0] at h
      show mget (mergeMaps (mset m1 k0 v0) rest) k = mget m1 k
      rw [ih _ h, mget_mset_ne _ _ _ _ (fun hkk => h0 hkk.symm)]

theorem mget_mergeMaps_of_some {α β : Type} [DecidableEq α] (m1 m2 : List (α × β)) (k : α)
    (v : β) (hnd : (keysOf m2).Nodup) (h : mget m2 k = some v) :
    mget (mergeMaps m1 m2) k = some v := by
  induction m2 generalizing m1 with
  | nil => simp [mget] at h
  | cons p rest ih =>
    obtain ⟨k0, v0⟩ := p
    simp only [keysOf, List.map_cons, List.nodup_cons] at hnd
    by_cases h0 : k0 = k
    · subst h0
      have hv : v0 = v := by simpa [mget] using h
      subst hv
      show mget (mergeMaps (mset m1 k0 v0) rest) k0 = some v0
      rw [mget_mergeMaps_of_none _ _ _ (mget_eq_none_of_not_mem rest k0 hnd.1),
        mget_mset_self]
    · simp only [mget, if_neg h0] at h
      exact ih _ hnd.2 h

theorem mem_dedupKeepFirstGo (a : Int) (l : List Int) : ∀ seen : List Int,
    a ∈ dedupKeepFirstGo seen l ↔ a ∈ l ∧ a ∉ seen := by
  induction l with
  | nil => intro seen; simp [dedupKeepFirstGo]
  | cons x xs ih =>
    intro seen
    by_cases hx : x ∈ seen
    · simp only [dedupKeepFirstGo, if_pos hx, ih, List.mem_cons]
      constructor
      · rintro ⟨h1, h2⟩; exact ⟨Or.inr h1, h2⟩
      · rintro ⟨rfl | h1, h2⟩
        · exact absurd hx h2
        · exact ⟨h1, h2⟩
    · simp only [dedupKeepFirstGo, if_neg hx, List.mem_cons, ih]
      constructor
      · rintro (rfl | ⟨h1, h2⟩)
        · exact ⟨Or.inl rfl, hx⟩
        · exact ⟨Or.inr h1, fun hs => h2 (Or.inr hs)⟩
      · rintro ⟨rfl | h1, h2⟩
        · exact Or.inl rfl
        · by_cases hax : a = x
          · exact Or.inl hax
          · refine Or.inr ⟨h1, ?_⟩
            rintro (rfl | hs2)
            · exact hax rfl
            · exact h2 hs2

theorem mget_map_pair {β : Type} (l : List Int) (f : Int → β) (i : Int) (h : i ∈ l) :
    mget (l.map (fun j => (j, f j))) i = some (f i) := by
  induction l with
  | nil => cases h
  | cons x xs ih =>
    by_cases hx : x = i
    · subst hx; simp [mget]
    · rcases List.mem_cons.mp h with rfl | hmem
      · exact absurd rfl hx
      · simp only [List.map_cons, mget, if_neg hx]
        exact ih hmem

/-! ### Invariants of the extraction passes -/

/-- The maps built by the passes keep keys unique: the shared map has
no duplicate canonical keys, and neither does any per-item map. -/
def GoodAcc (acc : FieldMap × ItemsMap) : Prop :=
  (keysOf acc.1).Nodup ∧ ∀ i m, mget acc.2 i = some m → (keysOf m).Nodup

theorem goodAcc_nil : GoodAcc ([], []) := by
  refine ⟨List.nodup_nil, ?_⟩
  intro i m hm
  simp [mget] at hm

theorem goodAcc_itemsSet {acc : FieldMap × ItemsMap} (h : GoodAcc acc) (idx : Int)
    (k v : List Char) : GoodAcc (acc.1, itemsSet acc.2 idx k v) := by
  refine ⟨h.1, ?_⟩
  intro j m hm
  unfold itemsSet at hm
  by_cases hij : j = idx
  · subst hij
    rw [mget_mset_self] at hm
    cases hm
    apply nodup_keys_mset
    cases hg : mget acc.2 j with
    | none => simp [hg, keysOf]
    | some m0 => simpa [hg] using h.2 j m0 hg
  · rw [mget_mset_ne _ _ _ _ hij] at hm
    exact h.2 j m hm

theorem goodAcc_embedStep {acc : FieldMap × ItemsMap} (h : GoodAcc acc) (f : EmbedField) :
    GoodAcc (embedStep acc f) := by
  unfold embedStep
  cases hp : parseFieldName f.name with
  | none => exact h
  | some bi =>
    by_cases h1 : bi.1 ∈ PER_ITEM_FIELDS
    · simpa [h1] using goodAcc_itemsSet h bi.2 ((FIELD_MAPPINGS bi.1).getD []) (trimL f.value)
    · by_cases h2 : bi.1 ∈ SHARED_FIELDS
      · simp only [h1, h2, if_neg, if_pos, if_false, if_true]
        exact ⟨nodup_keys_mset _ _ _ h.1, h.2⟩
      · simpa [h1, h2] using h

theorem goodAcc_embedFold (fs : List EmbedField) (acc : FieldMap × ItemsMap)
    (h : GoodAcc acc) : GoodAcc (fs.foldl embedStep acc) := by
  induction fs generalizing acc with
  | nil => exact h
  | cons f fs ih => exact ih _ (goodAcc_embedStep h f)

theorem goodAcc_embedExtract (e : Option Embed) : GoodAcc (embedExtract e) := by
  cases e with
  | none => exact goodAcc_nil
  | some e =>
    cases hf : e.fields with
    | none =>
      simp only [embedExtract, hf]
      exact goodAcc_nil
    | some fs =>
      simp only [embedExtract, hf]
      exact goodAcc_embedFold fs _ goodAcc_nil

/-! ### The builder seen through its result -/

set_option maxHeartbeats 2000000 in
/-- Everything `buildPurchase` guarantees about a record it emits: each
field is the cleansed lookup the loop body computes (shared fields and
the raw text do not depend on the item entry), and the two required
fields are nonempty. -/
theorem buildPurchase_some (sh : FieldMap) (rt : List Char) (en : Int × FieldMap)
    (p : ParsedWebhookMessage) (h : buildPurchase sh rt en = some p) :
    p.product = stripSpoilerTags (jsOr (mget en.2 (S "product")) []) ∧
    p.price = parsePrice (jsOr (mget en.2 (S "price")) (S "0")) ∧
    p.quantity = parseQuantity (jsOr (mget en.2 (S "quantity")) (S "1")) ∧
    p.site = stripSpoilerTags (jsOr (mget sh (S "site")) []) ∧
    p.sku = orNull (stripSpoilerTags (jsOr (mget en.2 (S "sku")) [])) ∧
    p.mode = orNull (stripSpoilerTags (jsOr (mget sh (S "mode")) [])) ∧
    p.fulfillment_type = orNull (stripSpoilerTags (jsOr (mget sh (S "fulfillment_type")) [])) ∧
    p.profile = orNull (stripSpoilerTags (jsOr (mget sh (S "profile")) [])) ∧
    p.order_id = orNull (stripSpoilerTags (jsOr (mget sh (S "order_id")) [])) ∧
    p.order_email = orNull (stripSpoilerTags (jsOr (mget sh (S "order_email")) [])) ∧
    p.order_link = orNull (stripSpoilerTags (jsOr (mget sh (S "order_link")) [])) ∧
    p.account = orNull (stripSpoilerTags (jsOr (mget sh (S "account")) [])) ∧
    p.raw_message_text = rt ∧
    p.product ≠ [] ∧ p.site ≠ [] := by
  unfold buildPurchase at h
  split at h
  · exact absurd h (by simp)
  · next hc =>
    push_neg at hc
    have hp := (Option.some.inj h).symm
    subst hp
    refine ⟨rfl, rfl, rfl, rfl, rfl, rfl, rfl, rfl, rfl, rfl, rfl, rfl, rfl, hc.1, hc.2⟩

/-! ### The claims -/

/-- C1: all ParsedPurchase records returned by one call to
`parseWebhookMessage` have pairwise identical values for `site`, `mode`,
`fulfillment_type`, `profile`, `order_id`, `order_email`, `order_link`,
`account` and `raw_message_text`. -/
theorem C1_shared_fields_identical (e : Option Embed) (t : List Char)
    (r1 r2 : ParsedWebhookMessage)
    (h1 : r1 ∈ parseWebhookMessage e t) (h2 : r2 ∈ parseWebhookMessage e t) :
    r1.site = r2.site ∧ r1.mode = r2.mode ∧ r1.fulfillment_type = r2.fulfillment_type ∧
    r1.profile = r2.profile ∧ r1.order_id = r2.order_id ∧ r1.order_email = r2.order_email ∧
    r1.order_link = r2.order_link ∧ r1.account = r2.account ∧
    r1.raw_message_text = r2.raw_message_text := by
  unfold parseWebhookMessage at h1 h2
  obtain ⟨a1, -, hb1⟩ := List.mem_filterMap.mp h1
  obtain ⟨a2, -, hb2⟩ := List.mem_filterMap.mp h2
  obtain ⟨-, -, -, hst1, -, hmo1, hft1, hpf1, hoi1, hoe1, hol1, hac1, hrw1, -, -⟩ :=
    buildPurchase_some _ _ _ _ hb1
  obtain ⟨-, -, -, hst2, -, hmo2, hft2, hpf2, hoi2, hoe2, hol2, hac2, hrw2, -, -⟩ :=
    buildPurchase_some _ _ _ _ hb2
  exact ⟨hst1.trans hst2.symm, hmo1.trans hmo2.symm, hft1.trans hft2.symm,
    hpf1.trans hpf2.symm, hoi1.trans hoi2.symm, hoe1.trans hoe2.symm,
    hol1.trans hol2.symm, hac1.trans hac2.symm, hrw1.trans hrw2.symm⟩

/-- Concrete raw text used to witness C1. -/
def w1txt : List Char := S "Site: Sx\nProduct: P"

/-- The single record `parseWebhookMessage` returns for `w1txt`. -/
def w1rec : ParsedWebhookMessage :=
  ⟨S "P", mkRat 0 1, 1, S "Sx", none, none, none, none, none, none, none, none, w1txt⟩

theorem C1_witness :
    w1rec.site = w1rec.site ∧ w1rec.mode = w1rec.mode ∧
    w1rec.fulfillment_type = w1rec.fulfillment_type ∧ w1rec.profile = w1rec.profile ∧
    w1rec.order_id = w1rec.order_id ∧ w1rec.order_email = w1rec.order_email ∧
    w1rec.order_link = w1rec.order_link ∧ w1rec.account = w1rec.account ∧
    w1rec.raw_message_text = w1rec.raw_message_text :=
  C1_shared_fields_identical none w1txt w1rec w1rec (by decide) (by decide)

/-- C2: when the embed fields and the raw text both supply a value for
the same canonical key (and, per-item, the same index), the embed value
is the one in the merged maps (shared and per-item), and hence in the
output records (shown for the shared key `site`). -/
theorem C2_embed_precedence (e : Option Embed) (t k v : List Char) :
    (mget (embedExtract e).1 k = some v → mget (sharedMerged e t) k = some v) ∧
    (∀ i m, mget (embedExtract e).2 i = some m → mget m k = some v →
      ∃ m2, mget (itemsMerged e t) i = some m2 ∧ mget m2 k = some v) ∧
    (k = S "site" → mget (embedExtract e).1 k = some v →
      ∀ r, r ∈ parseWebhookMessage e t → r.site = stripSpoilerTags v) := by
  have hg := goodAcc_embedExtract e
  refine ⟨?_, ?_, ?_⟩
  · intro h
    exact mget_mergeMaps_of_some _ _ _ _ hg.1 h
  · intro i m hm hk
    refine ⟨mergeMaps ((mget (extractFieldsFromText t).2 i).getD [])
        ((mget (embedExtract e).2 i).getD []), ?_, ?_⟩
    · unfold itemsMerged
      apply mget_map_pair
      apply (mem_dedupKeepFirstGo i _ []).mpr
      refine ⟨List.mem_append_left _ ?_, by simp⟩
      exact mget_some_mem _ _ _ hm
    · rw [hm]
      exact mget_mergeMaps_of_some _ _ _ _ (hg.2 i m hm) (by simpa using hk)
  · rintro rfl h r hr
    obtain ⟨a, -, hb⟩ := List.mem_filterMap.mp hr
    obtain ⟨-, -, -, hst, -⟩ := buildPurchase_some _ _ _ _ hb
    rw [hst, sharedMerged, mget_mergeMaps_of_some _ _ _ _ hg.1 h]
    by_cases hv : v = []
    · subst hv; rfl
    · simp [jsOr, hv]

/-- Embed used to witness C2: it conflicts with the raw text on both
the shared key `site` and the per-item key `product` at index 0. -/
def w2emb : Embed :=
  ⟨none, none, some [⟨S "Site", S "Esite"⟩, ⟨S "Product", S "Eprod"⟩], none⟩

/-- Raw text used to witness C2. -/
def w2txt : List Char := S "Site\nTsite\nProduct\nTprod"

/-- The single record `parseWebhookMessage` returns for `w2emb`/`w2txt`. -/
def w2rec : ParsedWebhookMessage :=
  ⟨S "Eprod", mkRat 0 1, 1, S "Esite", none, none, none, none, none, none, none, none, w2txt⟩

theorem C2_witness :
    mget (sharedMerged (some w2emb) w2txt) (S "site") = some (S "Esite") ∧
    (∃ m2, mget (itemsMerged (some w2emb) w2txt) 0 = some m2 ∧
      mget m2 (S "product") = some (S "Eprod")) ∧
    w2rec.site = stripSpoilerTags (S "Esite") :=
  ⟨(C2_embed_precedence (some w2emb) w2txt (S "site") (S "Esite")).1 (by decide),
   (C2_embed_precedence (some w2emb) w2txt (S "product") (S "Eprod")).2.1 0
     [(S "product", S "Eprod")] (by decide) (by decide),
   (C2_embed_precedence (some w2emb) w2txt (S "site") (S "Esite")).2.2 rfl (by decide)
     w2rec (by decide)⟩

/-- C3: every returned record has nonempty `product` and `site` after
cleansing; an item failing that gate is skipped without affecting
sibling items (the index-0 item lacking a product is dropped while the
index-1 item is still emitted), and an empty result list is a normal
outcome. -/
theorem C3_required_fields :
    (∀ (e : Option Embed) (t : List Char) (r : ParsedWebhookMessage),
        r ∈ parseWebhookMessage e t → r.product ≠ [] ∧ r.site ≠ []) ∧
    (parseWebhookMessage none (S "Site\nS\nPrice (1)\n5\nProduct (2)\nB")).map
        ParsedWebhookMessage.product = [S "B"] ∧
    parseWebhookMessage none [] = [] := by
  refine ⟨?_, by decide, by decide⟩
  intro e t r hr
  obtain ⟨a, -, hb⟩ := List.mem_filterMap.mp hr
  obtain ⟨-, -, -, -, -, -, -, -, -, -, -, -, -, hp, hs⟩ := buildPurchase_some _ _ _ _ hb
  exact ⟨hp, hs⟩

/-- Raw text used to witness C3. -/
def w3txt : List Char := S "Site\nW3site\nProduct\nW3prod"

/-- The single record `parseWebhookMessage` returns for `w3txt`. -/
def w3rec : ParsedWebhookMessage :=
  ⟨S "W3prod", mkRat 0 1, 1, S "W3site", none, none, none, none, none, none, none, none, w3txt⟩

theorem C3_witness : w3rec.product ≠ [] ∧ w3rec.site ≠ [] :=
  C3_required_fields.1 none w3txt w3rec (by decide)

/-- A raw label in `SHARED_FIELDS` is never in `PER_ITEM_FIELDS`. -/
theorem shared_notIn_perItem (b : List Char) (h : b ∈ SHARED_FIELDS) :
    b ∉ PER_ITEM_FIELDS := by
  fin_cases h <;> decide

/-- C4 counterexample: two embed fields with the same name `Site`; the
claim (first-write-wins) predicts the earlier value `A`, but both the
embed-scoped shared map and the end-to-end output carry the later value
`B`. -/
theorem C4_counterexample :
    mget (embedFieldsExtract [⟨S "Site", S "A"⟩, ⟨S "Site", S "B"⟩]).1 (S "site") =
      some (S "B") ∧
    (parseWebhookMessage
        (some ⟨none, none,
          some [⟨S "Site", S "A"⟩, ⟨S "Site", S "B"⟩, ⟨S "Product", S "P"⟩], none⟩)
        []).map ParsedWebhookMessage.site = [S "B"] ∧
    S "B" ≠ S "A" := by
  refine ⟨by decide, by decide, by decide⟩

/-- C4 (amended): within the embed-fields extraction pass writes are
last-write-wins: the final field of the list that resolves to a key
determines that key's value, for shared keys in the shared map and for
per-item keys in the map of its item index. -/
theorem C4_embed_pass_last_write_wins (fs : List EmbedField) (f : EmbedField)
    (b mk : List Char) (i : Int)
    (h1 : parseFieldName f.name = some (b, i))
    (h2 : FIELD_MAPPINGS b = some mk) :
    (b ∈ SHARED_FIELDS →
      mget (embedFieldsExtract (fs ++ [f])).1 mk = some (trimL f.value)) ∧
    (b ∈ PER_ITEM_FIELDS →
      ∃ m, mget (embedFieldsExtract (fs ++ [f])).2 i = some m ∧
        mget m mk = some (trimL f.value)) := by
  have hstep : embedFieldsExtract (fs ++ [f]) = embedStep (embedFieldsExtract fs) f := by
    unfold embedFieldsExtract
    rw [List.foldl_append]
    rfl
  constructor
  · intro hb
    have hnb : b ∉ PER_ITEM_FIELDS := shared_notIn_perItem b hb
    rw [hstep]
    simp only [embedStep, h1, h2, Option.getD_some]
    rw [if_neg hnb, if_pos hb]
    exact mget_mset_self _ _ _
  · intro hb
    rw [hstep]
    simp only [embedStep, h1, h2, Option.getD_some]
    rw [if_pos hb]
    unfold itemsSet
    exact ⟨_, mget_mset_self _ _ _, mget_mset_self _ _ _⟩

theorem C4_witness :
    mget (embedFieldsExtract ([⟨S "Mode", S "MA"⟩] ++ [⟨S "Mode", S "MB"⟩])).1 (S "mode") =
      some (trimL (S "MB")) ∧
    (∃ m,
      mget (embedFieldsExtract ([⟨S "Sku", S "KA"⟩] ++ [⟨S "Sku", S "KB"⟩])).2 0 = some m ∧
        mget m (S "sku") = some (trimL (S "KB"))) :=
  ⟨(C4_embed_pass_last_write_wins [⟨S "Mode", S "MA"⟩] ⟨S "Mode", S "MB"⟩
      (S "mode") (S "mode") 0 (by decide) (by decide)).1 (by decide),
   (C4_embed_pass_last_write_wins [⟨S "Sku", S "KA"⟩] ⟨S "Sku", S "KB"⟩
      (S "sku") (S "sku") 0 (by decide) (by decide)).2 (by decide)⟩

/-- C5: the labels `buy now` and `buy now atc?` do resolve to the
canonical key `mode` in the mapping table, but they belong to neither
classification set (which hold raw labels, not canonical keys), so the
recording branch drops their value: a checkout whose embed carries
`Buy Now` still has `mode = none` in the output. -/
theorem C5_buy_now_dropped :
    parseFieldName (S "Buy Now") = some (S "buy now", 0) ∧
    parseFieldName (S "buy now atc?") = some (S "buy now atc?", 0) ∧
    FIELD_MAPPINGS (S "buy now") = some (S "mode") ∧
    FIELD_MAPPINGS (S "buy now atc?") = some (S "mode") ∧
    (S "buy now") ∉ SHARED_FIELDS ∧ (S "buy now") ∉ PER_ITEM_FIELDS ∧
    (S "buy now atc?") ∉ SHARED_FIELDS ∧ (S "buy now atc?") ∉ PER_ITEM_FIELDS ∧
    (parseWebhookMessage
        (some ⟨none, none,
          some [⟨S "Buy Now", S "Fast"⟩, ⟨S "Site", S "SiteX"⟩, ⟨S "Product", S "Prod"⟩],
          none⟩) []).map ParsedWebhookMessage.mode = [none] := by
  refine ⟨by decide, by decide, by decide, by decide, by decide, by decide, by decide,
    by decide, by decide⟩

/-- C6 counterexample: the text carries `Price -5` and `Qty 0`; both
parse, so the returned record has a negative price and a quantity below
one, refuting non-negativity and the ≥ 1 bound. -/
theorem C6_counterexample :
    (parseWebhookMessage none (S "Site\nS\nProduct\nP\nPrice\n-5\nQty\n0")).map
        ParsedWebhookMessage.price = [mkRat (-5) 1] ∧
    (parseWebhookMessage none (S "Site\nS\nProduct\nP\nPrice\n-5\nQty\n0")).map
        ParsedWebhookMessage.quantity = [0] ∧
    ¬(0 ≤ mkRat (-5) 1) ∧ ¬((1 : Int) ≤ 0) := by
  refine ⟨by decide, by decide, by norm_num [Rat.mkRat_eq_div], by decide⟩

/-- C6 (amended): the numeric defaults hold — a price text whose
cleansed form fails to parse yields price 0 and a quantity text whose
cleansed form fails to parse yields quantity 1 — and every record's
price and quantity come from `parsePrice`/`parseQuantity`; but parsed
values pass through unchecked, so negative prices and quantities below
one are possible. -/
theorem C6_numeric_defaults :
    (∀ s, parseFloatQ (priceCleaned s) = none → parsePrice s = 0) ∧
    (∀ s, parseIntJS (qtyCleaned s) = none → parseQuantity s = 1) ∧
    (∀ (e : Option Embed) (t : List Char) (r : ParsedWebhookMessage),
        r ∈ parseWebhookMessage e t →
        ∃ ps qs, r.price = parsePrice ps ∧ r.quantity = parseQuantity qs) := by
  refine ⟨?_, ?_, ?_⟩
  · intro s h
    unfold parsePrice
    rw [h]
    rfl
  · intro s h
    unfold parseQuantity
    rw [h]
    rfl
  · intro e t r hr
    obtain ⟨a, -, hb⟩ := List.mem_filterMap.mp hr
    obtain ⟨-, hpr, hqt, -⟩ := buildPurchase_some _ _ _ _ hb
    exact ⟨_, _, hpr, hqt⟩

/-- Raw text used to witness C6. -/
def w6txt : List Char := S "Site\nW6site\nProduct\nW6prod"

/-- The single record `parseWebhookMessage` returns for `w6txt`. -/
def w6rec : ParsedWebhookMessage :=
  ⟨S "W6prod", mkRat 0 1, 1, S "W6site", none, none, none, none, none, none, none, none, w6txt⟩

theorem C6_witness :
    parsePrice (S "abc") = 0 ∧ parseQuantity (S "def") = 1 ∧
    (∃ ps qs, w6rec.price = parsePrice ps ∧ w6rec.quantity = parseQuantity qs) :=
  ⟨C6_numeric_defaults.1 (S "abc") (by decide),
   C6_numeric_defaults.2.1 (S "def") (by decide),
   C6_numeric_defaults.2.2 none w6txt w6rec (by decide)⟩

/-- Embed used in the C7 counterexample: the trigger phrase only arises
across the space-join of title and description. -/
def w7emb : Embed := ⟨some (S "successful"), some (S "checkout"), none, none⟩

/-- C7 counterexample: no single component (title, description, author
name, raw text) contains any trigger phrase, yet the classifier answers
true, because joining the components with spaces creates
`successful checkout`. -/
theorem C7_counterexample :
    isSuccessfulCheckout (some w7emb) [] = true ∧
    hasSubstring (S "successful checkout") (toLowerL (S "successful")) = false ∧
    hasSubstring (S "checkout success") (toLowerL (S "successful")) = false ∧
    hasSubstring (S "successfully checked out") (toLowerL (S "successful")) = false ∧
    hasSubstring (S "successful checkout") (toLowerL (S "checkout")) = false ∧
    hasSubstring (S "checkout success") (toLowerL (S "checkout")) = false ∧
    hasSubstring (S "successfully checked out") (toLowerL (S "checkout")) = false ∧
    hasSubstring (S "successful checkout") (toLowerL []) = false ∧
    hasSubstring (S "checkout success") (toLowerL []) = false ∧
    hasSubstring (S "successfully checked out") (toLowerL []) = false := by
  refine ⟨by decide, by decide, by decide, by decide, by decide, by decide, by decide,
    by decide, by decide, by decide⟩

/-- C7 (amended): when the lowercased space-join of embed title, embed
description, embed author name and raw text contains none of the three
trigger phrases, `isSuccessfulCheckout` returns false. -/
theorem C7_classifier_negative (e : Option Embed) (t : List Char)
    (h1 : hasSubstring (S "successful checkout") (checkedText e t) = false)
    (h2 : hasSubstring (S "checkout success") (checkedText e t) = false)
    (h3 : hasSubstring (S "successfully checked out") (checkedText e t) = false) :
    isSuccessfulCheckout e t = false := by
  rcases e with _ | e
  · rcases t with _ | ⟨c, t⟩
    · rfl
    · simp only [isSuccessfulCheckout, h1, h2, h3, Bool.or_self, Bool.or_false]
  · simp only [isSuccessfulCheckout, h1, h2, h3, Bool.or_self, Bool.or_false]

theorem C7_witness : isSuccessfulCheckout none (S "hello there") = false :=
  C7_classifier_negative none (S "hello there") (by decide) (by decide) (by decide)

/-- C8: the three sample price texts cleanse and parse to the claimed
numbers, and any price text whose cleansed form fails the numeric parse
yields 0. -/
theorem C8_price_parsing :
    parsePrice (S "$1,234.56") = (1234.56 : ℚ) ∧
    parsePrice (S "1234.56 USD") = (1234.56 : ℚ) ∧
    parsePrice (S "||$12.00||") = (12.00 : ℚ) ∧
    (∀ s, parseFloatQ (priceCleaned s) = none → parsePrice s = 0) := by
  refine ⟨?_, ?_, ?_, ?_⟩
  · have h : parsePrice (S "$1,234.56") = mkRat 123456 100 := by decide
    rw [h]
    norm_num [Rat.mkRat_eq_div]
  · have h : parsePrice (S "1234.56 USD") = mkRat 123456 100 := by decide
    rw [h]
    norm_num [Rat.mkRat_eq_div]
  · have h : parsePrice (S "||$12.00||") = mkRat 1200 100 := by decide
    rw [h]
    norm_num [Rat.mkRat_eq_div]
  · intro s h
    unfold parsePrice
    rw [h]
    rfl

theorem C8_witness : parsePrice (S "xyz") = 0 :=
  C8_price_parsing.2.2.2 (S "xyz") (by decide)

/-- The raw text of the end-to-end claim C9. -/
def w9txt : List Char := S "Site\nNikeStore\nProduct\nAir Max\nPrice\n$100\nQty\n2"

/-- C9: the end-to-end example — newline-separated label/value text with
a `Successful Checkout` title — yields exactly one record with product
`Air Max`, price 100, quantity 2, site `NikeStore`, sku null and the
original text as `raw_message_text` (all other optional fields null). -/
theorem C9_end_to_end :
    parseWebhookMessage (some ⟨some (S "Successful Checkout"), none, none, none⟩) w9txt =
      [⟨S "Air Max", (100 : ℚ), 2, S "NikeStore", none, none, none, none, none, none,
        none, none, w9txt⟩] := by
  have h : (100 : ℚ) = mkRat 100 1 := by norm_num [Rat.mkRat_eq_div]
  rw [h]
  decide

/-- C10: `parseFieldName` accepts the numbered label `product (0)` and
returns the canonical base with item index 0 − 1 = −1; such an index
participates in merging and sorts before index 0, so a `Product (0)`
item is emitted before a plain `Product` item. -/
theorem C10_zero_numbered_label :
    parseFieldName (S "product (0)") = some (S "product", -1) ∧
    (parseWebhookMessage none (S "Site\nS\nProduct (0)\nA\nProduct\nB")).map
        ParsedWebhookMessage.product = [S "A", S "B"] ∧
    sortByIdx [(0, ([] : FieldMap)), (-1, [])] = [(-1, []), (0, [])] := by
  refine ⟨by decide, by decide, by decide⟩
